import Mathlib

/-!
Shallow embedding of the Smart Parking Lot Management System
(`src/SmartParkingLot/src/main_app.py`).

The SQLite database is modelled as lists of rows in insertion (rowid)
order, together with the autoincrement counters.  Timestamps
("YYYY-MM-DD HH:MM:SS" strings in the code) are modelled as seconds
(`Nat`); `REAL` amounts are modelled as `ℚ`.  The three data operations
the GUI callbacks perform — `add_vehicle_window.submit`,
`exit_vehicle_window.submit_exit` and `add_slots_window.update_slots` —
become the functions `parkVehicle`, `exitVehicle` and `provisionSlots`.
-/

namespace SmartParking

/-- A row of the `slots` table:
`slot_id INTEGER PRIMARY KEY AUTOINCREMENT, slot_number TEXT UNIQUE NOT NULL,
is_occupied INTEGER DEFAULT 0`. -/
structure Slot where
  slot_id : Nat
  slot_number : String
  is_occupied : Bool
deriving DecidableEq, Repr

/-- A row of the `vehicles` table (one parking session):
`vehicle_id INTEGER PRIMARY KEY AUTOINCREMENT, owner_name TEXT,
vehicle_number TEXT UNIQUE, slot_id INTEGER, entry_time TEXT, exit_time TEXT`. -/
structure Vehicle where
  vehicle_id : Nat
  owner_name : String
  vehicle_number : String
  slot_id : Nat
  entry_time : Nat
  exit_time : Option Nat
deriving DecidableEq, Repr

/-- A row of the `payments` table:
`payment_id INTEGER PRIMARY KEY AUTOINCREMENT, vehicle_id INTEGER,
amount REAL, payment_time TEXT`. -/
structure Payment where
  payment_id : Nat
  vehicle_id : Nat
  amount : ℚ
  payment_time : Nat
deriving DecidableEq, Repr

/-- The whole database: the three tables in rowid order plus the
autoincrement counters. -/
structure DB where
  slots : List Slot
  vehicles : List Vehicle
  payments : List Payment
  nextSlotId : Nat
  nextVehicleId : Nat
  nextPaymentId : Nat
deriving DecidableEq, Repr

/-- The freshly created database (`ensure_tables_exist` on a new file):
all tables empty, autoincrement counters at 1. -/
def DB.empty : DB := ⟨[], [], [], 1, 1, 1⟩

/-- The constant `rate_per_min = 1.0` in `submit_exit`. -/
def ratePerMinute : ℚ := 1

/-- Python's `round` to an integer: round half to even (banker's rounding).
`q.num.fdiv q.den` is `⌊q⌋` since the denominator is positive. -/
def roundHalfEven (q : ℚ) : ℤ :=
  let n : ℤ := q.num.fdiv q.den
  let r : ℚ := q - (n : ℚ)
  if r < 1 / 2 then n
  else if 1 / 2 < r then n + 1
  else if n % 2 = 0 then n else n + 1

/-- Python's `round(x, 2)`. -/
def round2 (q : ℚ) : ℚ := (roundHalfEven (q * 100) : ℚ) / 100

/-- The computation `minutes = max(1, int((now - entry_dt).total_seconds() / 60))` in
`submit_exit`, for a duration of `d` seconds.  `int` truncates toward zero
but the `max` with 1 makes truncated natural subtraction agree with the
Python value even when the duration would be negative. -/
def billedMinutes (d : Nat) : Nat := max 1 (d / 60)

/-- The computation `amount = round(minutes * rate_per_min, 2)` in `submit_exit`. -/
def computeFee (minutes : Nat) : ℚ := round2 ((minutes : ℚ) * ratePerMinute)

/-- The query `SELECT slot_id, slot_number FROM slots WHERE is_occupied=0 LIMIT 1`:
the first unoccupied slot in rowid order, if any. -/
def findFreeSlot (db : DB) : Option Slot :=
  db.slots.find? (fun s => !s.is_occupied)

/-- Whether some row of `vehicles` already carries this `vehicle_number`.
Because the column is declared `TEXT UNIQUE`, an `INSERT` raises
`sqlite3.IntegrityError` exactly when this holds (active or exited). -/
def hasVehicleNumber (db : DB) (vnum : String) : Bool :=
  db.vehicles.any (fun v => v.vehicle_number == vnum)

/-- The statement `UPDATE slots SET is_occupied=occ WHERE slot_id=sid`. -/
def setOccupied (sid : Nat) (occ : Bool) (slots : List Slot) : List Slot :=
  slots.map (fun t => if t.slot_id = sid then { t with is_occupied := occ } else t)

/-- The statement `UPDATE vehicles SET exit_time=now WHERE vehicle_id=vid`. -/
def setExitTime (vid now : Nat) (vehicles : List Vehicle) : List Vehicle :=
  vehicles.map (fun w => if w.vehicle_id = vid then { w with exit_time := some now } else w)

/-- Outcome of `add_vehicle_window.submit`. -/
inductive ParkResult where
  | parked (slotLabel : String)
  | full
  | conflict
  | emptyNumber
deriving DecidableEq, Repr

/-- Outcome of `exit_vehicle_window.submit_exit`. -/
inductive ExitResult where
  | exited (slotLabel : String) (minutes : Nat) (amount : ℚ)
  | notFound
  | emptyNumber
deriving DecidableEq, Repr

/-- The committed transaction of `add_vehicle_window.submit`:
`INSERT INTO vehicles (owner_name, vehicle_number, slot_id, entry_time)`
followed by `UPDATE slots SET is_occupied=1 WHERE slot_id=?`. -/
def parkCommit (db : DB) (s : Slot) (owner vnum : String) (now : Nat) : DB :=
  { slots := setOccupied s.slot_id true db.slots
    vehicles := db.vehicles ++ [⟨db.nextVehicleId, owner, vnum, s.slot_id, now, none⟩]
    payments := db.payments
    nextSlotId := db.nextSlotId
    nextVehicleId := db.nextVehicleId + 1
    nextPaymentId := db.nextPaymentId }

/-- The callback `add_vehicle_window.submit`: reject an empty vehicle number, look for a
free slot (error `Full` if none), then `INSERT` the session row and mark
the slot occupied, in one transaction.  A uniqueness violation on
`vehicle_number` aborts before the slot update and the commit, leaving the
database unchanged (`Conflict`). -/
def parkVehicle (db : DB) (owner vnum : String) (now : Nat) : ParkResult × DB :=
  if vnum = "" then (ParkResult.emptyNumber, db)
  else
    match findFreeSlot db with
    | none => (ParkResult.full, db)
    | some s =>
      if hasVehicleNumber db vnum then (ParkResult.conflict, db)
      else (ParkResult.parked s.slot_number, parkCommit db s owner vnum now)

/-- The `WHERE v.vehicle_number=? AND v.exit_time IS NULL` filter of
`submit_exit`, including the `JOIN slots` requirement that the session's
slot row exists. -/
def activeWithNumber (db : DB) (vnum : String) (v : Vehicle) : Bool :=
  v.vehicle_number == vnum && v.exit_time.isNone &&
    db.slots.any (fun s => s.slot_id == v.slot_id)

/-- The committed transaction of `exit_vehicle_window.submit_exit`:
`UPDATE vehicles SET exit_time=?`, `UPDATE slots SET is_occupied=0` and
`INSERT INTO payments (vehicle_id, amount, payment_time)`. -/
def exitCommit (db : DB) (v : Vehicle) (now : Nat) : DB :=
  { slots := setOccupied v.slot_id false db.slots
    vehicles := setExitTime v.vehicle_id now db.vehicles
    payments := db.payments ++
      [⟨db.nextPaymentId, v.vehicle_id, computeFee (billedMinutes (now - v.entry_time)), now⟩]
    nextSlotId := db.nextSlotId
    nextVehicleId := db.nextVehicleId
    nextPaymentId := db.nextPaymentId + 1 }

/-- The callback `exit_vehicle_window.submit_exit`: reject an empty vehicle number, find
the active session for it (error `NotFound` if none), compute the billed
minutes and fee, set the exit timestamp, free the slot and append the
payment row. -/
def exitVehicle (db : DB) (vnum : String) (now : Nat) : ExitResult × DB :=
  if vnum = "" then (ExitResult.emptyNumber, db)
  else
    match db.vehicles.find? (activeWithNumber db vnum) with
    | none => (ExitResult.notFound, db)
    | some v =>
      match db.slots.find? (fun s => s.slot_id == v.slot_id) with
      | none => (ExitResult.notFound, db)
      | some s =>
        (ExitResult.exited s.slot_number (billedMinutes (now - v.entry_time))
          (computeFee (billedMinutes (now - v.entry_time))),
          exitCommit db v now)

/-- The label `slot_name = f"Slot-\x7bi\x7d"` in `update_slots`. -/
def slotLabel (i : Nat) : String := "Slot-" ++ toString i

/-- Whether some row of `slots` already carries this `slot_number`. -/
def hasSlotLabel (db : DB) (lab : String) : Bool :=
  db.slots.any (fun s => s.slot_number == lab)

/-- One `INSERT OR IGNORE INTO slots (slot_number, is_occupied) VALUES (?, 0)`. -/
def insertSlotIfAbsent (db : DB) (lab : String) : DB :=
  if hasSlotLabel db lab then db
  else
    { db with
      slots := db.slots ++ [⟨db.nextSlotId, lab, false⟩]
      nextSlotId := db.nextSlotId + 1 }

/-- The `for i in range(1, total + 1)` loop of `update_slots`, over an
arbitrary list of labels. -/
def provisionList (db : DB) (labs : List String) : DB :=
  labs.foldl insertSlotIfAbsent db

/-- The callback `add_slots_window.update_slots`: reject a non-positive total
(`ValidationError`, modelled as `none`), otherwise insert-if-absent the
labels `Slot-1 .. Slot-total`. -/
def provisionSlots (db : DB) (total : Int) : Option DB :=
  if total ≤ 0 then none
  else some (provisionList db ((List.range' 1 total.toNat).map slotLabel))

/-- The query `SELECT COALESCE(SUM(amount),0) FROM payments` followed by
`round(total, 2)` in `payments_window`. -/
def totalRevenue (db : DB) : ℚ :=
  round2 ((db.payments.map Payment.amount).sum)

/-- Number of free slots (`SELECT COUNT(*) FROM slots WHERE is_occupied=0`). -/
def freeCount (db : DB) : Nat :=
  db.slots.countP (fun s => !s.is_occupied)

/-- The data operations the GUI can trigger, with the wall-clock second at
which they run. -/
inductive Op where
  | provision (total : Int)
  | park (owner vnum : String) (now : Nat)
  | depart (vnum : String) (now : Nat)
deriving DecidableEq, Repr

/-- The database after one GUI operation; failed operations leave the
database unchanged. -/
def applyOp (db : DB) : Op → DB
  | Op.provision t => (provisionSlots db t).getD db
  | Op.park o v n => (parkVehicle db o v n).2
  | Op.depart v n => (exitVehicle db v n).2

/-- Databases reachable from a fresh file by GUI operations. -/
inductive Reachable : DB → Prop where
  | init : Reachable DB.empty
  | step {db : DB} : Reachable db → ∀ op : Op, Reachable (applyOp db op)

/-- The inductive invariant of the database: primary keys are distinct and
below the autoincrement counters, each active session sits in an occupied
slot, no two active sessions share a slot, every closed session has its
payment row carrying the fee of its stay, and every recorded amount is a
whole number of currency units. -/
structure Inv (db : DB) : Prop where
  slotIdsNodup : (db.slots.map Slot.slot_id).Nodup
  slotIdsLt : ∀ s ∈ db.slots, s.slot_id < db.nextSlotId
  vehIdsNodup : (db.vehicles.map Vehicle.vehicle_id).Nodup
  vehIdsLt : ∀ v ∈ db.vehicles, v.vehicle_id < db.nextVehicleId
  activeOccupied : ∀ v ∈ db.vehicles, v.exit_time = none →
    ∃ s ∈ db.slots, s.slot_id = v.slot_id ∧ s.is_occupied = true
  uniqueActive : ∀ v ∈ db.vehicles, ∀ w ∈ db.vehicles,
    v.exit_time = none → w.exit_time = none → v.slot_id = w.slot_id → v = w
  closedPayment : ∀ v ∈ db.vehicles, ∀ t : Nat, v.exit_time = some t →
    ∃ p ∈ db.payments, p.vehicle_id = v.vehicle_id ∧
      p.amount = computeFee (billedMinutes (t - v.entry_time))
  amountsNat : ∀ p ∈ db.payments, ∃ n : Nat, p.amount = (n : ℚ)

/-- Example run: two slots provisioned on a fresh database. -/
def dbTwo : DB := applyOp DB.empty (Op.provision 2)

/-- Example run: two slots, vehicle "KA01" parked at second 0. -/
def dbPark : DB := applyOp dbTwo (Op.park "alice" "KA01" 0)

/-- Example run: "KA01" exited at second 300 (5 minutes), leaving both
slots free, one closed session and one payment. -/
def dbClosed : DB := applyOp dbPark (Op.depart "KA01" 300)

/-- Example run: a one-slot lot filled by vehicle "MH12". -/
def dbFull : DB := applyOp (applyOp DB.empty (Op.provision 1)) (Op.park "bob" "MH12" 0)

/-! ### Arithmetic of the billing functions -/

theorem roundHalfEven_intCast (n : ℤ) : roundHalfEven ((n : ℚ)) = n := by
  have h0 : ((n : ℚ).num).fdiv ((n : ℚ).den) = n := by
    rw [Rat.num_intCast, Rat.den_intCast]
    rw [Int.fdiv_eq_ediv _ (by norm_num)]
    simp
  simp only [roundHalfEven, h0]
  norm_num

theorem round2_natCast (m : ℕ) : round2 ((m : ℚ)) = m := by
  have h1 : ((m : ℚ)) * 100 = (((m * 100 : ℕ) : ℤ) : ℚ) := by push_cast; ring
  rw [round2, h1, roundHalfEven_intCast]
  push_cast
  ring_nf

theorem computeFee_natCast (m : ℕ) : computeFee m = (m : ℚ) := by
  simp only [computeFee, ratePerMinute, mul_one, round2_natCast]

/-! ### Lemmas about the `UPDATE` helpers -/

theorem setOccupied_map_slot_id (sid : Nat) (occ : Bool) (l : List Slot) :
    (setOccupied sid occ l).map Slot.slot_id = l.map Slot.slot_id := by
  simp only [setOccupied, List.map_map]
  refine List.map_congr_left ?_
  intro t _
  by_cases h : t.slot_id = sid <;> simp [h]

theorem setExitTime_map_vehicle_id (vid now : Nat) (l : List Vehicle) :
    (setExitTime vid now l).map Vehicle.vehicle_id = l.map Vehicle.vehicle_id := by
  simp only [setExitTime, List.map_map]
  refine List.map_congr_left ?_
  intro w _
  by_cases h : w.vehicle_id = vid <;> simp [h]

theorem mem_setOccupied_iff {t' : Slot} {sid : Nat} {occ : Bool} {l : List Slot} :
    t' ∈ setOccupied sid occ l ↔
      ∃ t ∈ l, t' = if t.slot_id = sid then { t with is_occupied := occ } else t := by
  simp only [setOccupied, List.mem_map, eq_comm]

theorem mem_setExitTime_iff {w' : Vehicle} {vid now : Nat} {l : List Vehicle} :
    w' ∈ setExitTime vid now l ↔
      ∃ w ∈ l, w' = if w.vehicle_id = vid then { w with exit_time := some now } else w := by
  simp only [setExitTime, List.mem_map, eq_comm]

theorem setOccupied_of_forall_ne {sid : Nat} {occ : Bool} {l : List Slot}
    (h : ∀ t ∈ l, t.slot_id ≠ sid) : setOccupied sid occ l = l := by
  simp only [setOccupied]
  have : ∀ t ∈ l, (if t.slot_id = sid then { t with is_occupied := occ } else t) = t := by
    intro t ht
    simp [h t ht]
  rw [List.map_congr_left this]
  simp

/-! ### Characterizations of the branch conditions -/

theorem hasVehicleNumber_false_iff {db : DB} {vnum : String} :
    hasVehicleNumber db vnum = false ↔ ∀ v ∈ db.vehicles, v.vehicle_number ≠ vnum := by
  simp [hasVehicleNumber]

theorem hasVehicleNumber_true_iff {db : DB} {vnum : String} :
    hasVehicleNumber db vnum = true ↔ ∃ v ∈ db.vehicles, v.vehicle_number = vnum := by
  simp [hasVehicleNumber]

theorem findFreeSlot_eq_none_iff {db : DB} :
    findFreeSlot db = none ↔ ∀ s ∈ db.slots, s.is_occupied = true := by
  simp [findFreeSlot]

theorem findFreeSlot_isSome {db : DB} (h : ∃ s ∈ db.slots, s.is_occupied = false) :
    ∃ s, findFreeSlot db = some s ∧ s ∈ db.slots ∧ s.is_occupied = false := by
  rcases h with ⟨s₀, hs₀, hfree₀⟩
  rcases ho : findFreeSlot db with _ | s
  · rw [findFreeSlot_eq_none_iff] at ho
    rw [ho s₀ hs₀] at hfree₀
    cases hfree₀
  · refine ⟨s, rfl, List.mem_of_find?_eq_some ho, ?_⟩
    have := List.find?_some ho
    simpa using this

/-! ### Branch equations for `parkVehicle` -/

theorem parkVehicle_emptyNumber {db : DB} {o : String} {now : Nat} :
    parkVehicle db o "" now = (ParkResult.emptyNumber, db) := by
  simp [parkVehicle]

theorem parkVehicle_full {db : DB} {o vnum : String} {now : Nat}
    (hv : vnum ≠ "") (h : findFreeSlot db = none) :
    parkVehicle db o vnum now = (ParkResult.full, db) := by
  simp [parkVehicle, hv, h]

theorem parkVehicle_conflict {db : DB} {o vnum : String} {now : Nat} {s : Slot}
    (hv : vnum ≠ "") (hs : findFreeSlot db = some s) (hd : hasVehicleNumber db vnum = true) :
    parkVehicle db o vnum now = (ParkResult.conflict, db) := by
  simp [parkVehicle, hv, hs, hd]

theorem parkVehicle_success {db : DB} {o vnum : String} {now : Nat} {s : Slot}
    (hv : vnum ≠ "") (hs : findFreeSlot db = some s) (hd : hasVehicleNumber db vnum = false) :
    parkVehicle db o vnum now = (ParkResult.parked s.slot_number, parkCommit db s o vnum now) := by
  simp [parkVehicle, hv, hs, hd]

/-! ### Branch equations for `exitVehicle` -/

theorem exitVehicle_emptyNumber {db : DB} {now : Nat} :
    exitVehicle db "" now = (ExitResult.emptyNumber, db) := by
  simp [exitVehicle]

theorem exitVehicle_notFound {db : DB} {vnum : String} {now : Nat}
    (hv : vnum ≠ "")
    (h : ∀ v ∈ db.vehicles, v.vehicle_number = vnum → v.exit_time ≠ none) :
    exitVehicle db vnum now = (ExitResult.notFound, db) := by
  have hfind : db.vehicles.find? (activeWithNumber db vnum) = none := by
    rw [List.find?_eq_none]
    intro v hv'
    simp only [activeWithNumber, Bool.and_eq_true, beq_iff_eq, Option.isNone_iff_eq_none,
      List.any_eq_true, not_and]
    rintro ⟨hnum, hexit⟩
    exact absurd hexit (h v hv' hnum)
  simp [exitVehicle, hv, hfind]

theorem exitVehicle_found {db : DB} {vnum : String} {now : Nat} {v : Vehicle} {s : Slot}
    (hv : vnum ≠ "")
    (hfind : db.vehicles.find? (activeWithNumber db vnum) = some v)
    (hslot : db.slots.find? (fun s => s.slot_id == v.slot_id) = some s) :
    exitVehicle db vnum now =
      (ExitResult.exited s.slot_number (billedMinutes (now - v.entry_time))
        (computeFee (billedMinutes (now - v.entry_time))), exitCommit db v now) := by
  simp [exitVehicle, hv, hfind, hslot]

/-! ### Lemmas about slot provisioning -/

theorem insertSlotIfAbsent_vehicles (db : DB) (lab : String) :
    (insertSlotIfAbsent db lab).vehicles = db.vehicles := by
  by_cases h : hasSlotLabel db lab = true <;> simp [insertSlotIfAbsent, h]

theorem insertSlotIfAbsent_payments (db : DB) (lab : String) :
    (insertSlotIfAbsent db lab).payments = db.payments := by
  by_cases h : hasSlotLabel db lab = true <;> simp [insertSlotIfAbsent, h]

theorem insertSlotIfAbsent_slots_append (db : DB) (lab : String) :
    ∃ new : List Slot, (insertSlotIfAbsent db lab).slots = db.slots ++ new ∧
      ∀ t ∈ new, t.is_occupied = false := by
  by_cases h : hasSlotLabel db lab = true
  · exact ⟨[], by simp [insertSlotIfAbsent, h], by simp⟩
  · refine ⟨[⟨db.nextSlotId, lab, false⟩], ?_, ?_⟩
    · simp [insertSlotIfAbsent, h]
    · simp

theorem insertSlotIfAbsent_of_present {db : DB} {lab : String}
    (h : hasSlotLabel db lab = true) : insertSlotIfAbsent db lab = db := by
  simp [insertSlotIfAbsent, h]

theorem hasSlotLabel_iff {db : DB} {lab : String} :
    hasSlotLabel db lab = true ↔ ∃ s ∈ db.slots, s.slot_number = lab := by
  simp [hasSlotLabel]

theorem insertSlotIfAbsent_of_absent {db : DB} {lab : String}
    (h : ¬hasSlotLabel db lab = true) :
    (insertSlotIfAbsent db lab).slots = db.slots ++ [⟨db.nextSlotId, lab, false⟩] := by
  simp [insertSlotIfAbsent, h]

theorem hasSlotLabel_insertSlotIfAbsent (db : DB) (lab l' : String) :
    hasSlotLabel (insertSlotIfAbsent db lab) l' = true ↔
      hasSlotLabel db l' = true ∨ l' = lab := by
  by_cases h : hasSlotLabel db lab = true
  · rw [insertSlotIfAbsent_of_present h]
    constructor
    · exact Or.inl
    · rintro (h' | rfl)
      · exact h'
      · exact h
  · rw [hasSlotLabel_iff, hasSlotLabel_iff, insertSlotIfAbsent_of_absent h]
    constructor
    · rintro ⟨s, hsmem, rfl⟩
      rcases List.mem_append.mp hsmem with hm | hm
      · exact Or.inl ⟨s, hm, rfl⟩
      · simp only [List.mem_singleton] at hm
        subst hm
        exact Or.inr rfl
    · rintro (⟨s, hm, rfl⟩ | rfl)
      · exact ⟨s, List.mem_append_left _ hm, rfl⟩
      · exact ⟨⟨db.nextSlotId, l', false⟩, List.mem_append_right _ (by simp), rfl⟩

theorem provisionList_vehicles (db : DB) (L : List String) :
    (provisionList db L).vehicles = db.vehicles := by
  induction L generalizing db with
  | nil => rfl
  | cons lab L ih =>
    simp only [provisionList, List.foldl_cons] at *
    rw [ih, insertSlotIfAbsent_vehicles]

theorem provisionList_payments (db : DB) (L : List String) :
    (provisionList db L).payments = db.payments := by
  induction L generalizing db with
  | nil => rfl
  | cons lab L ih =>
    simp only [provisionList, List.foldl_cons] at *
    rw [ih, insertSlotIfAbsent_payments]

theorem provisionList_slots_append (db : DB) (L : List String) :
    ∃ new : List Slot, (provisionList db L).slots = db.slots ++ new ∧
      ∀ t ∈ new, t.is_occupied = false := by
  induction L generalizing db with
  | nil => exact ⟨[], by simp [provisionList], by simp⟩
  | cons lab L ih =>
    rcases insertSlotIfAbsent_slots_append db lab with ⟨n₁, h₁, hf₁⟩
    rcases ih (insertSlotIfAbsent db lab) with ⟨n₂, h₂, hf₂⟩
    refine ⟨n₁ ++ n₂, ?_, ?_⟩
    · simp only [provisionList, List.foldl_cons] at *
      rw [h₂, h₁, List.append_assoc]
    · intro t ht
      rcases List.mem_append.mp ht with ht | ht
      · exact hf₁ t ht
      · exact hf₂ t ht

theorem hasSlotLabel_provisionList (db : DB) (L : List String) (l' : String) :
    hasSlotLabel (provisionList db L) l' = true ↔
      hasSlotLabel db l' = true ∨ l' ∈ L := by
  induction L generalizing db with
  | nil => simp [provisionList]
  | cons lab L ih =>
    simp only [provisionList, List.foldl_cons] at *
    rw [ih, hasSlotLabel_insertSlotIfAbsent]
    simp only [List.mem_cons]
    tauto

theorem provisionList_of_all_present {db : DB} {L : List String}
    (h : ∀ l ∈ L, hasSlotLabel db l = true) : provisionList db L = db := by
  induction L with
  | nil => rfl
  | cons lab L ih =>
    have hlab : hasSlotLabel db lab = true := h lab (List.mem_cons_self _ _)
    simp only [provisionList, List.foldl_cons, insertSlotIfAbsent_of_present hlab]
    exact ih (fun l hl => h l (List.mem_cons_of_mem _ hl))

/-! ### Counting free slots -/

theorem setOccupied_cons (sid : Nat) (occ : Bool) (h : Slot) (t : List Slot) :
    setOccupied sid occ (h :: t) =
      (if h.slot_id = sid then { h with is_occupied := occ } else h) :: setOccupied sid occ t :=
  rfl

theorem countP_setOccupied_true {l : List Slot} {s : Slot}
    (hnd : (l.map Slot.slot_id).Nodup) (hs : s ∈ l) (hfree : s.is_occupied = false) :
    (setOccupied s.slot_id true l).countP (fun t => !t.is_occupied) + 1
      = l.countP (fun t => !t.is_occupied) := by
  induction l with
  | nil => cases hs
  | cons h t ih =>
    simp only [List.map_cons, List.nodup_cons] at hnd
    rcases hnd with ⟨hnotin, hndt⟩
    rcases List.mem_cons.mp hs with rfl | hst
    · have htail : setOccupied s.slot_id true t = t := by
        apply setOccupied_of_forall_ne
        intro u hu hequ
        exact hnotin (hequ ▸ List.mem_map_of_mem Slot.slot_id hu)
      rw [setOccupied_cons, if_pos rfl, htail]
      rw [List.countP_cons, List.countP_cons]
      simp [hfree]
    · have hh : h.slot_id ≠ s.slot_id := by
        intro hequ
        exact hnotin (hequ ▸ List.mem_map_of_mem Slot.slot_id hst)
      rw [setOccupied_cons, if_neg hh]
      rw [List.countP_cons, List.countP_cons]
      have := ih hndt hst
      omega

/-! ### Preservation of the invariant -/

theorem lt_not_mem_map {α : Type _} {f : α → ℕ} {l : List α} {n : ℕ}
    (h : ∀ x ∈ l, f x < n) : n ∉ l.map f := by
  intro hmem
  rcases List.mem_map.mp hmem with ⟨x, hx, hfx⟩
  exact lt_irrefl n (hfx ▸ h x hx)

theorem vehId_inj {db : DB} (inv : Inv db) {v w : Vehicle}
    (hv : v ∈ db.vehicles) (hw : w ∈ db.vehicles) (h : v.vehicle_id = w.vehicle_id) : v = w :=
  List.inj_on_of_nodup_map inv.vehIdsNodup hv hw h

theorem slotId_inj {db : DB} (inv : Inv db) {s t : Slot}
    (hs : s ∈ db.slots) (ht : t ∈ db.slots) (h : s.slot_id = t.slot_id) : s = t :=
  List.inj_on_of_nodup_map inv.slotIdsNodup hs ht h

theorem inv_empty : Inv DB.empty := by
  constructor <;> simp [DB.empty]

theorem inv_insertSlotIfAbsent {db : DB} (inv : Inv db) (lab : String) :
    Inv (insertSlotIfAbsent db lab) := by
  by_cases h : hasSlotLabel db lab = true
  · rw [insertSlotIfAbsent_of_present h]
    exact inv
  · have hdb : insertSlotIfAbsent db lab =
        { db with slots := db.slots ++ [⟨db.nextSlotId, lab, false⟩]
                  nextSlotId := db.nextSlotId + 1 } := by
      simp [insertSlotIfAbsent, h]
    rw [hdb]
    constructor
    · simp only [List.map_append, List.map_cons, List.map_nil]
      refine List.nodup_append.mpr ⟨inv.slotIdsNodup, List.nodup_singleton _, ?_⟩
      intro x hx hx1
      simp only [List.mem_singleton] at hx1
      subst hx1
      exact lt_not_mem_map inv.slotIdsLt hx
    · intro s hs
      rcases List.mem_append.mp hs with hs | hs
      · exact Nat.lt_succ_of_lt (inv.slotIdsLt s hs)
      · simp only [List.mem_singleton] at hs
        subst hs
        exact Nat.lt_succ_self _
    · exact inv.vehIdsNodup
    · exact inv.vehIdsLt
    · intro v hv hve
      rcases inv.activeOccupied v hv hve with ⟨s, hs, hsid, hocc⟩
      exact ⟨s, List.mem_append_left _ hs, hsid, hocc⟩
    · exact inv.uniqueActive
    · intro v hv t hvt
      rcases inv.closedPayment v hv t hvt with ⟨p, hp, h1, h2⟩
      exact ⟨p, hp, h1, h2⟩
    · exact inv.amountsNat

theorem inv_provisionList {db : DB} (inv : Inv db) (L : List String) :
    Inv (provisionList db L) := by
  induction L generalizing db with
  | nil => exact inv
  | cons lab L ih =>
    simp only [provisionList, List.foldl_cons]
    exact ih (inv_insertSlotIfAbsent inv lab)

theorem inv_parkCommit {db : DB} (inv : Inv db) {s : Slot} (hs : s ∈ db.slots)
    (hfree : s.is_occupied = false) (o vnum : String) (now : Nat) :
    Inv (parkCommit db s o vnum now) := by
  constructor
  · show ((setOccupied s.slot_id true db.slots).map Slot.slot_id).Nodup
    rw [setOccupied_map_slot_id]
    exact inv.slotIdsNodup
  · intro t ht
    rcases mem_setOccupied_iff.mp ht with ⟨u, hu, rfl⟩
    have h2 : (if u.slot_id = s.slot_id then { u with is_occupied := true } else u).slot_id
        = u.slot_id := by
      by_cases h : u.slot_id = s.slot_id <;> simp [h]
    rw [h2]
    exact inv.slotIdsLt u hu
  · show (List.map Vehicle.vehicle_id
      (db.vehicles ++ [(⟨db.nextVehicleId, o, vnum, s.slot_id, now, none⟩ : Vehicle)])).Nodup
    simp only [List.map_append, List.map_cons, List.map_nil]
    refine List.nodup_append.mpr ⟨inv.vehIdsNodup, List.nodup_singleton _, ?_⟩
    intro x hx hx1
    simp only [List.mem_singleton] at hx1
    subst hx1
    exact lt_not_mem_map inv.vehIdsLt hx
  · intro v hv
    rcases List.mem_append.mp hv with hv | hv
    · exact Nat.lt_succ_of_lt (inv.vehIdsLt v hv)
    · simp only [List.mem_singleton] at hv
      subst hv
      exact Nat.lt_succ_self _
  · intro v hv hve
    rcases List.mem_append.mp hv with hv | hv
    · rcases inv.activeOccupied v hv hve with ⟨sw, hsw, hswid, hswocc⟩
      by_cases h : sw.slot_id = s.slot_id
      · refine ⟨{ sw with is_occupied := true }, ?_, ?_, rfl⟩
        · exact mem_setOccupied_iff.mpr ⟨sw, hsw, (if_pos h).symm⟩
        · exact hswid
      · refine ⟨sw, ?_, hswid, hswocc⟩
        exact mem_setOccupied_iff.mpr ⟨sw, hsw, (if_neg h).symm⟩
    · simp only [List.mem_singleton] at hv
      subst hv
      refine ⟨{ s with is_occupied := true }, ?_, rfl, rfl⟩
      exact mem_setOccupied_iff.mpr ⟨s, hs, by simp⟩
  · intro v hv w hw hve hwe hslot
    rcases List.mem_append.mp hv with hv | hv <;> rcases List.mem_append.mp hw with hw | hw
    · exact inv.uniqueActive v hv w hw hve hwe hslot
    · exfalso
      simp only [List.mem_singleton] at hw
      subst hw
      rcases inv.activeOccupied v hv hve with ⟨sw, hsw, hswid, hswocc⟩
      have heq : sw = s := slotId_inj inv hsw hs (by rw [hswid, hslot])
      rw [heq, hfree] at hswocc
      cases hswocc
    · exfalso
      simp only [List.mem_singleton] at hv
      subst hv
      rcases inv.activeOccupied w hw hwe with ⟨sw, hsw, hswid, hswocc⟩
      have heq : sw = s := slotId_inj inv hsw hs (by rw [hswid, ← hslot])
      rw [heq, hfree] at hswocc
      cases hswocc
    · simp only [List.mem_singleton] at hv hw
      rw [hv, hw]
  · intro v hv t hvt
    rcases List.mem_append.mp hv with hv | hv
    · exact inv.closedPayment v hv t hvt
    · simp only [List.mem_singleton] at hv
      subst hv
      exact Option.noConfusion hvt
  · exact inv.amountsNat

theorem inv_exitCommit {db : DB} (inv : Inv db) {v : Vehicle} (hv : v ∈ db.vehicles)
    (hactive : v.exit_time = none) (now : Nat) : Inv (exitCommit db v now) := by
  constructor
  · show ((setOccupied v.slot_id false db.slots).map Slot.slot_id).Nodup
    rw [setOccupied_map_slot_id]
    exact inv.slotIdsNodup
  · intro t ht
    rcases mem_setOccupied_iff.mp ht with ⟨u, hu, rfl⟩
    have h2 : (if u.slot_id = v.slot_id then { u with is_occupied := false } else u).slot_id
        = u.slot_id := by
      by_cases h : u.slot_id = v.slot_id <;> simp [h]
    rw [h2]
    exact inv.slotIdsLt u hu
  · show ((setExitTime v.vehicle_id now db.vehicles).map Vehicle.vehicle_id).Nodup
    rw [setExitTime_map_vehicle_id]
    exact inv.vehIdsNodup
  · intro w hw
    rcases mem_setExitTime_iff.mp hw with ⟨u, hu, rfl⟩
    have h2 : (if u.vehicle_id = v.vehicle_id then { u with exit_time := some now } else u).vehicle_id
        = u.vehicle_id := by
      by_cases h : u.vehicle_id = v.vehicle_id <;> simp [h]
    rw [h2]
    exact inv.vehIdsLt u hu
  · intro w' hw' hw'e
    rcases mem_setExitTime_iff.mp hw' with ⟨u, hu, rfl⟩
    by_cases h : u.vehicle_id = v.vehicle_id
    · rw [if_pos h] at hw'e
      exact absurd hw'e (by simp)
    · rw [if_neg h] at hw'e ⊢
      rcases inv.activeOccupied u hu hw'e with ⟨sw, hsw, hswid, hswocc⟩
      have hne : sw.slot_id ≠ v.slot_id := by
        intro heq
        have hu_v : u = v := inv.uniqueActive u hu v hv hw'e hactive (by rw [← hswid, heq])
        exact h (by rw [hu_v])
      refine ⟨sw, ?_, hswid, hswocc⟩
      exact mem_setOccupied_iff.mpr ⟨sw, hsw, (if_neg hne).symm⟩
  · intro w1' hw1' w2' hw2' h1e h2e hslot
    rcases mem_setExitTime_iff.mp hw1' with ⟨u1, hu1, rfl⟩
    rcases mem_setExitTime_iff.mp hw2' with ⟨u2, hu2, rfl⟩
    by_cases h1 : u1.vehicle_id = v.vehicle_id
    · rw [if_pos h1] at h1e
      exact absurd h1e (by simp)
    · rw [if_neg h1] at h1e hslot ⊢
      by_cases h2 : u2.vehicle_id = v.vehicle_id
      · rw [if_pos h2] at h2e
        exact absurd h2e (by simp)
      · rw [if_neg h2] at h2e hslot ⊢
        exact inv.uniqueActive u1 hu1 u2 hu2 h1e h2e hslot
  · intro w' hw' t hw't
    rcases mem_setExitTime_iff.mp hw' with ⟨u, hu, rfl⟩
    by_cases h : u.vehicle_id = v.vehicle_id
    · have hu_v : u = v := vehId_inj inv hu hv h
      subst hu_v
      rw [if_pos rfl] at hw't ⊢
      have hnow : now = t := by simpa using hw't
      refine ⟨⟨db.nextPaymentId, u.vehicle_id,
        computeFee (billedMinutes (now - u.entry_time)), now⟩,
        List.mem_append_right _ (by simp), rfl, ?_⟩
      rw [hnow]
    · rw [if_neg h] at hw't ⊢
      rcases inv.closedPayment u hu t hw't with ⟨p, hp, hpid, hpamt⟩
      exact ⟨p, List.mem_append_left _ hp, hpid, hpamt⟩
  · intro p hp
    rcases List.mem_append.mp hp with hp | hp
    · exact inv.amountsNat p hp
    · simp only [List.mem_singleton] at hp
      subst hp
      exact ⟨billedMinutes (now - v.entry_time), computeFee_natCast _⟩

theorem inv_parkVehicle {db : DB} (inv : Inv db) (o vnum : String) (now : Nat) :
    Inv (parkVehicle db o vnum now).2 := by
  by_cases hv : vnum = ""
  · subst hv
    rw [parkVehicle_emptyNumber]
    exact inv
  · rcases hfs : findFreeSlot db with _ | s
    · rw [parkVehicle_full hv hfs]
      exact inv
    · by_cases hd : hasVehicleNumber db vnum = true
      · rw [parkVehicle_conflict hv hfs hd]
        exact inv
      · have hd' : hasVehicleNumber db vnum = false := by simpa using hd
        rw [parkVehicle_success hv hfs hd']
        exact inv_parkCommit inv (List.mem_of_find?_eq_some hfs)
          (by simpa using List.find?_some hfs) o vnum now

theorem inv_exitVehicle {db : DB} (inv : Inv db) (vnum : String) (now : Nat) :
    Inv (exitVehicle db vnum now).2 := by
  by_cases hv : vnum = ""
  · subst hv
    rw [exitVehicle_emptyNumber]
    exact inv
  · rcases hf : db.vehicles.find? (activeWithNumber db vnum) with _ | v
    · have heq : exitVehicle db vnum now = (ExitResult.notFound, db) := by
        simp [exitVehicle, hv, hf]
      rw [heq]
      exact inv
    · rcases hsl : db.slots.find? (fun s => s.slot_id == v.slot_id) with _ | s
      · have heq : exitVehicle db vnum now = (ExitResult.notFound, db) := by
          simp [exitVehicle, hv, hf, hsl]
        rw [heq]
        exact inv
      · rw [exitVehicle_found hv hf hsl]
        have hva := List.find?_some hf
        simp only [activeWithNumber, Bool.and_eq_true, beq_iff_eq,
          Option.isNone_iff_eq_none] at hva
        exact inv_exitCommit inv (List.mem_of_find?_eq_some hf) hva.1.2 now

theorem inv_applyOp {db : DB} (inv : Inv db) (op : Op) : Inv (applyOp db op) := by
  cases op with
  | provision t =>
    by_cases ht : t ≤ 0
    · simp only [applyOp, provisionSlots, if_pos ht, Option.getD_none]
      exact inv
    · simp only [applyOp, provisionSlots, if_neg ht, Option.getD_some]
      exact inv_provisionList inv _
  | park o v n => exact inv_parkVehicle inv o v n
  | depart v n => exact inv_exitVehicle inv v n

theorem reachable_inv {db : DB} (h : Reachable db) : Inv db := by
  induction h with
  | init => exact inv_empty
  | step _ op ih => exact inv_applyOp ih op

/-! ### Reachability of the example runs -/

theorem reachable_dbTwo : Reachable dbTwo :=
  Reachable.step Reachable.init (Op.provision 2)

theorem reachable_dbPark : Reachable dbPark :=
  Reachable.step reachable_dbTwo (Op.park "alice" "KA01" 0)

theorem reachable_dbClosed : Reachable dbClosed :=
  Reachable.step reachable_dbPark (Op.depart "KA01" 300)

theorem reachable_dbFull : Reachable dbFull :=
  Reachable.step (Reachable.step Reachable.init (Op.provision 1)) (Op.park "bob" "MH12" 0)

/-! ### Claims C7, C9, C10 -/

/-- Claim C7: for every vehicle number with no active (exit-null) session,
`exitVehicle` fails with NotFound and returns the database unchanged: no
session row, slot occupancy flag or payment row is created or modified. -/
theorem C7_exit_notFound (db : DB) (vnum : String) (now : Nat) (hne : vnum ≠ "")
    (h : ∀ v ∈ db.vehicles, v.vehicle_number = vnum → v.exit_time ≠ none) :
    exitVehicle db vnum now = (ExitResult.notFound, db) :=
  exitVehicle_notFound hne h

/-- Witness for C7: exiting "KA01" again after it already exited (its only
session is closed) reports NotFound and leaves the database unchanged. -/
theorem C7_witness : exitVehicle dbClosed "KA01" 400 = (ExitResult.notFound, dbClosed) :=
  C7_exit_notFound dbClosed "KA01" 400 (by decide) (by decide)

/-- Claim C9: `add_vehicle_window.submit` queries for a free slot before
attempting the insert, so with zero free slots the reported error is Full
for every vehicle number — even one that simultaneously has an active
session; Conflict is never reported from a full lot. -/
theorem C9_full_before_conflict (db : DB) (o vnum : String) (now : Nat) (hv : vnum ≠ "")
    (hfull : ∀ s ∈ db.slots, s.is_occupied = true) :
    (parkVehicle db o vnum now).1 = ParkResult.full := by
  rw [parkVehicle_full hv (findFreeSlot_eq_none_iff.mpr hfull)]

/-- Witness for C9: in the full one-slot lot, re-parking "MH12" — which has
an active session there — still reports Full, not Conflict. -/
theorem C9_witness : (parkVehicle dbFull "z" "MH12" 50).1 = ParkResult.full :=
  C9_full_before_conflict dbFull "z" "MH12" 50 (by decide) (by decide)

/-- Claim C10: when the session insert hits the uniqueness violation
(`sqlite3.IntegrityError`), the exception jumps past the slot update and
the commit, so the returned database is exactly the input database: no
session row is added and the chosen free slot stays unoccupied. -/
theorem C10_conflict_atomic (db : DB) (o vnum : String) (now : Nat) (hv : vnum ≠ "")
    (hfree : ∃ s ∈ db.slots, s.is_occupied = false)
    (hdup : ∃ v ∈ db.vehicles, v.vehicle_number = vnum) :
    parkVehicle db o vnum now = (ParkResult.conflict, db) := by
  rcases findFreeSlot_isSome hfree with ⟨s, hfs, _, _⟩
  exact parkVehicle_conflict hv hfs (hasVehicleNumber_true_iff.mpr hdup)

/-- Witness for C10: with a free slot left and "KA01" already active,
parking "KA01" again returns Conflict with the database unchanged. -/
theorem C10_witness : parkVehicle dbPark "q" "KA01" 99 = (ParkResult.conflict, dbPark) :=
  C10_conflict_atomic dbPark "q" "KA01" 99 (by decide) (by decide) (by decide)

/-! ### Claim C1 -/

/-- Counterexample to claim C1 as stated: in `dbClosed` every session of
"KA01" is closed and a free slot exists, yet parking "KA01" again yields
Conflict instead of succeeding — the `vehicle_number TEXT UNIQUE` column
constraint fires on closed rows too. -/
theorem C1_counterexample :
    (∀ v ∈ dbClosed.vehicles, v.vehicle_number = "KA01" → v.exit_time ≠ none) ∧
    (∃ s ∈ dbClosed.slots, s.is_occupied = false) ∧
    (parkVehicle dbClosed "bob" "KA01" 400).1 = ParkResult.conflict :=
  ⟨by decide, by decide, by decide⟩

/-- Claim C1 amended: `parkVehicle` fails with Conflict exactly when a free
slot exists and the given vehicle number already appears in *some* session
row, active or closed (the `vehicles.vehicle_number` column is globally
UNIQUE); parking with a free slot succeeds exactly for vehicle numbers
never used before. -/
theorem C1_conflict_iff_number_exists (db : DB) (o vnum : String) (now : Nat) (hv : vnum ≠ "") :
    ((parkVehicle db o vnum now).1 = ParkResult.conflict ↔
      (∃ s ∈ db.slots, s.is_occupied = false) ∧ ∃ v ∈ db.vehicles, v.vehicle_number = vnum) ∧
    ((∃ s ∈ db.slots, s.is_occupied = false) → (∀ v ∈ db.vehicles, v.vehicle_number ≠ vnum) →
      ∃ lab db', parkVehicle db o vnum now = (ParkResult.parked lab, db')) := by
  constructor
  · constructor
    · intro hconf
      rcases hfs : findFreeSlot db with _ | s
      · rw [parkVehicle_full hv hfs] at hconf
        cases hconf
      · by_cases hd : hasVehicleNumber db vnum = true
        · refine ⟨?_, hasVehicleNumber_true_iff.mp hd⟩
          exact ⟨s, List.mem_of_find?_eq_some hfs, by simpa using List.find?_some hfs⟩
        · have hd' : hasVehicleNumber db vnum = false := by simpa using hd
          rw [parkVehicle_success hv hfs hd'] at hconf
          cases hconf
    · rintro ⟨hfree, hdup⟩
      rcases findFreeSlot_isSome hfree with ⟨s, hfs, _, _⟩
      rw [parkVehicle_conflict hv hfs (hasVehicleNumber_true_iff.mpr hdup)]
  · intro hfree hfresh
    rcases findFreeSlot_isSome hfree with ⟨s, hfs, _, _⟩
    have hd' : hasVehicleNumber db vnum = false := hasVehicleNumber_false_iff.mpr hfresh
    exact ⟨s.slot_number, _, parkVehicle_success hv hfs hd'⟩

/-- Witness for the amended C1 at a state where "KA01" has an active
session and a free slot remains. -/
theorem C1_witness :
    ((parkVehicle dbPark "x" "KA01" 50).1 = ParkResult.conflict ↔
      (∃ s ∈ dbPark.slots, s.is_occupied = false) ∧
        ∃ v ∈ dbPark.vehicles, v.vehicle_number = "KA01") ∧
    ((∃ s ∈ dbPark.slots, s.is_occupied = false) →
      (∀ v ∈ dbPark.vehicles, v.vehicle_number ≠ "KA01") →
      ∃ lab db', parkVehicle dbPark "x" "KA01" 50 = (ParkResult.parked lab, db')) :=
  C1_conflict_iff_number_exists dbPark "x" "KA01" 50 (by decide)

/-! ### Claim C2 -/

/-- Claim C2: for every session closed at exit time `T1` with entry time
`T0 = v.entry_time` (`T1 ≥ T0`), the recorded payment bills
`minutes = max(1, floor((T1−T0) in minutes))` and
`fee = round(minutes × ratePerMinute, 2)` — a deterministic function of
the duration `T1 − T0` alone. -/
theorem C2_fee_formula (db : DB) (h : Reachable db) (v : Vehicle) (hv : v ∈ db.vehicles)
    (T1 : Nat) (hexit : v.exit_time = some T1) (_hge : v.entry_time ≤ T1) :
    ∃ p ∈ db.payments, p.vehicle_id = v.vehicle_id ∧
      p.amount = round2 (((max 1 ((T1 - v.entry_time) / 60) : Nat) : ℚ) * ratePerMinute) ∧
      billedMinutes (T1 - v.entry_time) = max 1 ((T1 - v.entry_time) / 60) := by
  have inv := reachable_inv h
  rcases inv.closedPayment v hv T1 hexit with ⟨p, hp, hpid, hpamt⟩
  refine ⟨p, hp, hpid, ?_, rfl⟩
  rw [hpamt]
  simp only [computeFee, billedMinutes]

/-- Witness for C2: the 300-second stay of "KA01" in `dbClosed` is billed
as `max 1 (300/60) = 5` minutes for a fee of `round2 (5 × 1) = 5`. -/
theorem C2_witness :
    ∃ p ∈ dbClosed.payments,
      p.vehicle_id = (⟨1, "alice", "KA01", 1, 0, some 300⟩ : Vehicle).vehicle_id ∧
      p.amount = round2
        (((max 1 ((300 - (⟨1, "alice", "KA01", 1, 0, some 300⟩ : Vehicle).entry_time) / 60)
          : Nat) : ℚ) * ratePerMinute) ∧
      billedMinutes (300 - (⟨1, "alice", "KA01", 1, 0, some 300⟩ : Vehicle).entry_time)
        = max 1 ((300 - (⟨1, "alice", "KA01", 1, 0, some 300⟩ : Vehicle).entry_time) / 60) :=
  C2_fee_formula dbClosed reachable_dbClosed ⟨1, "alice", "KA01", 1, 0, some 300⟩
    (by decide) 300 (by decide) (by decide)

/-! ### Claim C3 -/

/-- Claim C3: from any reachable state with at least one free slot, parking
a fresh vehicle number succeeds and decreases the free-slot count by
exactly one; with zero free slots, parking fails with Full and the state
is unchanged. -/
theorem C3_park_free_count (db : DB) (h : Reachable db) (o vnum : String) (now : Nat)
    (hv : vnum ≠ "") :
    ((∃ s ∈ db.slots, s.is_occupied = false) →
      (∀ v ∈ db.vehicles, v.vehicle_number ≠ vnum) →
      (∃ lab : String, (parkVehicle db o vnum now).1 = ParkResult.parked lab) ∧
        freeCount (parkVehicle db o vnum now).2 + 1 = freeCount db) ∧
    (freeCount db = 0 → parkVehicle db o vnum now = (ParkResult.full, db)) := by
  have inv := reachable_inv h
  constructor
  · intro hfree hfresh
    rcases findFreeSlot_isSome hfree with ⟨s, hfs, hmem, hocc⟩
    have hd' : hasVehicleNumber db vnum = false := hasVehicleNumber_false_iff.mpr hfresh
    rw [parkVehicle_success hv hfs hd']
    refine ⟨⟨s.slot_number, rfl⟩, ?_⟩
    show (setOccupied s.slot_id true db.slots).countP (fun t => !t.is_occupied) + 1 = freeCount db
    exact countP_setOccupied_true inv.slotIdsNodup hmem hocc
  · intro h0
    have hnone : findFreeSlot db = none := by
      rw [findFreeSlot_eq_none_iff]
      intro s hs
      have := List.countP_eq_zero.mp h0 s hs
      simpa using this
    exact parkVehicle_full hv hnone

/-- Witness for C3 at `dbPark` (one free slot, fresh number "NEW"). -/
theorem C3_witness :
    ((∃ s ∈ dbPark.slots, s.is_occupied = false) →
      (∀ v ∈ dbPark.vehicles, v.vehicle_number ≠ "NEW") →
      (∃ lab : String, (parkVehicle dbPark "o" "NEW" 10).1 = ParkResult.parked lab) ∧
        freeCount (parkVehicle dbPark "o" "NEW" 10).2 + 1 = freeCount dbPark) ∧
    (freeCount dbPark = 0 → parkVehicle dbPark "o" "NEW" 10 = (ParkResult.full, dbPark)) :=
  C3_park_free_count dbPark reachable_dbPark "o" "NEW" 10 (by decide)

/-! ### Claim C4 -/

/-- Claim C4: `provisionSlots` is idempotent on labels.  A successful run
with total `N > 0` appends rows only (every pre-existing slot row,
occupancy flag included, is untouched), afterwards the label set is
exactly the union of the pre-existing labels and `Slot-1 .. Slot-N`, and
running it again on the result changes nothing. -/
theorem C4_provision_idempotent (db : DB) (N : Int) (hN : 0 < N) (db' : DB)
    (h : provisionSlots db N = some db') :
    provisionSlots db' N = some db' ∧
    (∃ new : List Slot, db'.slots = db.slots ++ new) ∧
    (∀ lab : String, (∃ s ∈ db'.slots, s.slot_number = lab) ↔
      ((∃ s ∈ db.slots, s.slot_number = lab) ∨
        ∃ i : Nat, 1 ≤ i ∧ i ≤ N.toNat ∧ lab = slotLabel i)) := by
  have hN' : ¬N ≤ 0 := by omega
  have hdb' : db' = provisionList db ((List.range' 1 N.toNat).map slotLabel) := by
    rw [provisionSlots, if_neg hN'] at h
    exact (Option.some.injEq _ _ ▸ h).symm
  subst hdb'
  refine ⟨?_, ?_, ?_⟩
  · rw [provisionSlots, if_neg hN']
    congr 1
    apply provisionList_of_all_present
    intro l hl
    rw [hasSlotLabel_provisionList]
    exact Or.inr hl
  · rcases provisionList_slots_append db ((List.range' 1 N.toNat).map slotLabel) with ⟨new, hnew, _⟩
    exact ⟨new, hnew⟩
  · intro lab
    have hchar := hasSlotLabel_provisionList db ((List.range' 1 N.toNat).map slotLabel) lab
    rw [hasSlotLabel_iff, hasSlotLabel_iff] at hchar
    rw [hchar]
    have hmem : lab ∈ (List.range' 1 N.toNat).map slotLabel ↔
        ∃ i : Nat, 1 ≤ i ∧ i ≤ N.toNat ∧ lab = slotLabel i := by
      simp only [List.mem_map, List.mem_range']
      constructor
      · rintro ⟨i, ⟨j, hj, rfl⟩, rfl⟩
        exact ⟨1 + 1 * j, by omega, by omega, rfl⟩
      · rintro ⟨i, h1, h2, rfl⟩
        exact ⟨i, ⟨i - 1, by omega, by omega⟩, rfl⟩
    rw [hmem]

/-- Witness for C4: provisioning 2 slots on the fresh database. -/
theorem C4_witness :
    provisionSlots dbTwo 2 = some dbTwo ∧
    (∃ new : List Slot, dbTwo.slots = DB.empty.slots ++ new) ∧
    (∀ lab : String, (∃ s ∈ dbTwo.slots, s.slot_number = lab) ↔
      ((∃ s ∈ DB.empty.slots, s.slot_number = lab) ∨
        ∃ i : Nat, 1 ≤ i ∧ i ≤ (2 : Int).toNat ∧ lab = slotLabel i)) :=
  C4_provision_idempotent DB.empty 2 (by decide) dbTwo (by decide)

/-! ### Claim C5 -/

/-- Claim C5: in every reachable state, each active session's slot is
marked occupied, at most one active session references any given slot, and
every session with a non-null exit timestamp has a corresponding payment
row. -/
theorem C5_relationship_invariants (db : DB) (h : Reachable db) :
    (∀ v ∈ db.vehicles, v.exit_time = none →
      ∃ s ∈ db.slots, s.slot_id = v.slot_id ∧ s.is_occupied = true) ∧
    (∀ v ∈ db.vehicles, ∀ w ∈ db.vehicles, v.exit_time = none → w.exit_time = none →
      v.slot_id = w.slot_id → v = w) ∧
    (∀ v ∈ db.vehicles, v.exit_time ≠ none →
      ∃ p ∈ db.payments, p.vehicle_id = v.vehicle_id) := by
  have inv := reachable_inv h
  refine ⟨inv.activeOccupied, inv.uniqueActive, ?_⟩
  intro v hv hne
  rcases Option.ne_none_iff_exists'.mp hne with ⟨t, ht⟩
  rcases inv.closedPayment v hv t ht with ⟨p, hp, hpid, _⟩
  exact ⟨p, hp, hpid⟩

/-- Witness for C5 at the state with one active and no closed session. -/
theorem C5_witness :
    (∀ v ∈ dbPark.vehicles, v.exit_time = none →
      ∃ s ∈ dbPark.slots, s.slot_id = v.slot_id ∧ s.is_occupied = true) ∧
    (∀ v ∈ dbPark.vehicles, ∀ w ∈ dbPark.vehicles, v.exit_time = none → w.exit_time = none →
      v.slot_id = w.slot_id → v = w) ∧
    (∀ v ∈ dbPark.vehicles, v.exit_time ≠ none →
      ∃ p ∈ dbPark.payments, p.vehicle_id = v.vehicle_id) :=
  C5_relationship_invariants dbPark reachable_dbPark

/-! ### Claim C6 -/

theorem sum_of_natCast_amounts (l : List Payment)
    (h : ∀ p ∈ l, ∃ n : Nat, p.amount = (n : ℚ)) :
    ∃ n : Nat, (l.map Payment.amount).sum = (n : ℚ) := by
  induction l with
  | nil => exact ⟨0, by simp⟩
  | cons p l ih =>
    rcases h p (List.mem_cons_self p l) with ⟨n₁, hn₁⟩
    rcases ih (fun q hq => h q (List.mem_cons_of_mem p hq)) with ⟨n₂, hn₂⟩
    refine ⟨n₁ + n₂, ?_⟩
    simp only [List.map_cons, List.sum_cons, hn₁, hn₂]
    push_cast
    ring

/-- Claim C6: in every reachable state, the displayed total revenue equals
the exact sum of all recorded payment amounts (the 2-decimal rounding is
the identity on it), and it is 0 when no payments exist. -/
theorem C6_total_revenue (db : DB) (h : Reachable db) :
    totalRevenue db = (db.payments.map Payment.amount).sum ∧
    (db.payments = [] → totalRevenue db = 0) := by
  have inv := reachable_inv h
  rcases sum_of_natCast_amounts db.payments inv.amountsNat with ⟨n, hn⟩
  constructor
  · rw [totalRevenue, hn, round2_natCast]
  · intro hempty
    simp only [totalRevenue, hempty, List.map_nil, List.sum_nil]
    simpa using round2_natCast 0

/-- Witness for C6 at the state with one recorded payment. -/
theorem C6_witness :
    totalRevenue dbClosed = (dbClosed.payments.map Payment.amount).sum ∧
    (dbClosed.payments = [] → totalRevenue dbClosed = 0) :=
  C6_total_revenue dbClosed reachable_dbClosed

/-! ### Claim C8 -/

/-- Claim C8: once a session is closed its row is immutable — after any
further operation the row is still present unchanged, and no other row
ever carries its primary key (so the exit timestamp never reverts to null,
never changes, and the session is never re-billed). -/
theorem C8_closed_session_immutable (db : DB) (h : Reachable db) (v : Vehicle)
    (hv : v ∈ db.vehicles) (t : Nat) (ht : v.exit_time = some t) (op : Op) :
    v ∈ (applyOp db op).vehicles ∧
    ∀ w ∈ (applyOp db op).vehicles, w.vehicle_id = v.vehicle_id → w = v := by
  have inv := reachable_inv h
  have hmem : v ∈ (applyOp db op).vehicles := by
    cases op with
    | provision tot =>
      have hveh : (applyOp db (Op.provision tot)).vehicles = db.vehicles := by
        by_cases htot : tot ≤ 0
        · simp [applyOp, provisionSlots, htot]
        · simp [applyOp, provisionSlots, htot, provisionList_vehicles]
      rw [hveh]
      exact hv
    | park o vn n =>
      show v ∈ (parkVehicle db o vn n).2.vehicles
      by_cases hvn : vn = ""
      · subst hvn
        rw [parkVehicle_emptyNumber]
        exact hv
      · rcases hfs : findFreeSlot db with _ | s
        · rw [parkVehicle_full hvn hfs]
          exact hv
        · by_cases hd : hasVehicleNumber db vn = true
          · rw [parkVehicle_conflict hvn hfs hd]
            exact hv
          · have hd' : hasVehicleNumber db vn = false := by simpa using hd
            rw [parkVehicle_success hvn hfs hd']
            exact List.mem_append_left _ hv
    | depart vn n =>
      show v ∈ (exitVehicle db vn n).2.vehicles
      by_cases hvn : vn = ""
      · subst hvn
        rw [exitVehicle_emptyNumber]
        exact hv
      · rcases hf : db.vehicles.find? (activeWithNumber db vn) with _ | u
        · have heq : exitVehicle db vn n = (ExitResult.notFound, db) := by
            simp [exitVehicle, hvn, hf]
          rw [heq]
          exact hv
        · rcases hsl : db.slots.find? (fun s => s.slot_id == u.slot_id) with _ | s
          · have heq : exitVehicle db vn n = (ExitResult.notFound, db) := by
              simp [exitVehicle, hvn, hf, hsl]
            rw [heq]
            exact hv
          · rw [exitVehicle_found hvn hf hsl]
            have hu := List.find?_some hf
            simp only [activeWithNumber, Bool.and_eq_true, beq_iff_eq,
              Option.isNone_iff_eq_none] at hu
            have humem := List.mem_of_find?_eq_some hf
            have hvid : v.vehicle_id ≠ u.vehicle_id := by
              intro heq2
              have hveq : v = u := vehId_inj inv hv humem heq2
              rw [hveq, hu.1.2] at ht
              cases ht
            exact mem_setExitTime_iff.mpr ⟨v, hv, (if_neg hvid).symm⟩
  refine ⟨hmem, ?_⟩
  intro w hw hid
  exact List.inj_on_of_nodup_map (inv_applyOp inv op).vehIdsNodup hw hmem hid

/-- Witness for C8: the closed session of "KA01" survives a later park
operation unchanged. -/
theorem C8_witness :
    (⟨1, "alice", "KA01", 1, 0, some 300⟩ : Vehicle)
        ∈ (applyOp dbClosed (Op.park "p" "XY" 500)).vehicles ∧
    ∀ w ∈ (applyOp dbClosed (Op.park "p" "XY" 500)).vehicles,
      w.vehicle_id = (⟨1, "alice", "KA01", 1, 0, some 300⟩ : Vehicle).vehicle_id →
      w = ⟨1, "alice", "KA01", 1, 0, some 300⟩ :=
  C8_closed_session_immutable dbClosed reachable_dbClosed
    ⟨1, "alice", "KA01", 1, 0, some 300⟩ (by decide) 300 (by decide) (Op.park "p" "XY" 500)

end SmartParking
